import Mathlib

set_option autoImplicit false

/-!
Verification of the NUFFT_hsa transform pipeline (src/linalg/nufft_hsa.py).

Device arrays are modelled as flat C-order lists of exact complex numbers
(rational real and imaginary parts), carrying their allocation shape.
Arrays of shape `Nd + (batch,)` are stored batch-last, so the element at
spatial index `n` and channel `b` sits at flat position `n * batch + b`;
for the single-channel layout (`batch = 1`) the same formula applies.

The device kernels invoked by the pipeline (cTensorMultiply, cTensorCopy,
pELL_spmv_mCoil, pELL_spmvh_mCoil, cPopulate, cMultiplyVecInplace,
cMultiplyConjVecInplace, cAggregate) and the planner helpers live in
re_subroutine.py / _helper.py, which are not part of the analysed sources;
they are modelled from the specification (sections 3 and 4.1-4.4).  The
orchestration (plan bookkeeping, offload, forward, adjoint, the one2many
variants, selfadjoint, set_sense, reset_sense, the try/except fallback
cascades) is translated directly from nufft_hsa.py.
-/

/-- Exact complex scalar standing for the numpy.complex64 values held in
device buffers: rational real and imaginary parts. -/
structure Cx where
  re : ℚ
  im : ℚ
deriving DecidableEq, Repr

instance : Zero Cx := ⟨⟨0, 0⟩⟩

instance : One Cx := ⟨⟨1, 0⟩⟩

instance : Add Cx := ⟨fun a b => ⟨a.re + b.re, a.im + b.im⟩⟩

instance : Mul Cx := ⟨fun a b => ⟨a.re * b.re - a.im * b.im, a.re * b.im + a.im * b.re⟩⟩

/-- Complex conjugate. -/
def Cx.conj (a : Cx) : Cx := ⟨a.re, -a.im⟩

/-- Multiplication of a complex entry by a real (scaling-tensor) factor. -/
def Cx.scale (q : ℚ) (a : Cx) : Cx := ⟨q * a.re, q * a.im⟩

theorem Cx.zero_add (a : Cx) : (0 : Cx) + a = a := by
  cases a with
  | mk r i =>
    show Cx.mk (0 + r) (0 + i) = Cx.mk r i
    norm_num

theorem Cx.mul_conj_one (a : Cx) : a * Cx.conj 1 = a := by
  cases a with
  | mk r i =>
    show Cx.mk (r * 1 - i * -0) (r * -0 + i * 1) = Cx.mk r i
    norm_num

/-- Sum of a list of complex entries (the accumulation performed by the
gather and scatter kernels). -/
def csum (l : List Cx) : Cx := l.foldr (· + ·) 0

/-- Read of a flat complex device buffer; out-of-range reads yield 0. -/
def getC (d : List Cx) (i : ℕ) : Cx := d.getD i 0

/-- Read of a flat index buffer; out-of-range reads yield 0. -/
def getN (d : List ℕ) (i : ℕ) : ℕ := d.getD i 0

/-- Row access into a two-dimensional complex table (udata). -/
def getC2 (rows : List (List Cx)) (m j : ℕ) : Cx := getC (rows.getD m []) j

/-- Row access into a two-dimensional index table (kindx). -/
def getN2 (rows : List (List ℕ)) (m j : ℕ) : ℕ := getN (rows.getD m []) j

/-- Zero-filled flat buffer, the result of thr.array(...).fill(0). -/
def zerosC (n : ℕ) : List Cx := List.replicate n 0

/-- One-filled flat buffer, the result of thr.array(...).fill(1.0). -/
def onesC (n : ℕ) : List Cx := List.replicate n 1

/-- Modelled from the spec: stride metadata (elementsPerAxis) of section 3,
the C-order element strides of a shape, as computed by the missing helper
strides_divide_itemsize. -/
def strides : List ℕ → List ℕ
  | [] => []
  | _ :: t => t.prod :: strides t

/-- Per-axis index of spatial position n under shape Td, recovered with the
stride metadata. -/
def axisIdx (Td : List ℕ) (a n : ℕ) : ℕ :=
  (n / (strides Td).getD a 1) % Td.getD a 1

/-- Modelled from the spec: the separable deapodization factor of section 3
(ScalingTensor) at spatial position n, the product over axes of the
per-axis real correction vectors, reconstructed in one pass from the
stride metadata without materializing the full array. -/
def snFactor (Td : List ℕ) (sn : List (List ℚ)) (n : ℕ) : ℚ :=
  ((List.range Td.length).map fun a => (sn.getD a []).getD (axisIdx Td a n) 1).prod

/-- Modelled from the spec: kernel cTensorMultiply of section 4.1, missing
from the analysed sources (re_subroutine.py).  Multiplies an Nd-per-batch
flat buffer element-wise, in place, by the separable scaling tensor,
broadcasting across the batch dimension (element i belongs to spatial
position i / batch in the batch-last layout). -/
def cTensorMultiply (batch : ℕ) (Td : List ℕ) (sn : List (List ℚ)) (d : List Cx) : List Cx :=
  (List.range d.length).map fun i => Cx.scale (snFactor Td sn (i / batch)) (getC d i)

/-- Flat Kd-grid position corresponding to spatial position n of the Nd
grid: decompose n with the Nd strides, recompose with the Kd strides. -/
def kdIndex (Nd Kd : List ℕ) (n : ℕ) : ℕ :=
  ((List.range Nd.length).map fun a => axisIdx Nd a n * (strides Kd).getD a 1).sum

/-- Modelled from the spec: kernel cTensorCopy of section 4.2, missing from
the analysed sources (re_subroutine.py).  Structured copy between the Nd
buffer and the Kd buffer, one thread per spatial position n < prod Nd,
each moving every batch element; direction 1 embeds Nd into Kd, direction
-1 extracts Nd out of Kd, through the same invertible index mapping. -/
def cTensorCopy (batch : ℕ) (Nd Kd : List ℕ) (src dst : List Cx) (dir : Int) : List Cx :=
  (List.range Nd.prod).foldl (fun acc n =>
    (List.range batch).foldl (fun acc2 b =>
      if dir = 1 then
        acc2.set (kdIndex Nd Kd n * batch + b) (getC src (n * batch + b))
      else
        acc2.set (n * batch + b) (getC src (kdIndex Nd Kd n * batch + b))) acc) dst

/-- Modelled from the spec: one output row of the pELL_spmv_mCoil kernel of
section 4.3, missing from the analysed sources (re_subroutine.py).  For
flat output position i (sample m = i / batch, channel b = i % batch) it is
the fixed-fan-in gather sum over the prodJd neighbors. -/
def spmvRow (batch prodJd : ℕ) (kindx : List (List ℕ)) (udata : List (List Cx))
    (k : List Cx) (i : ℕ) : Cx :=
  csum ((List.range prodJd).map fun j =>
    getC2 udata (i / batch) j * getC k (getN2 kindx (i / batch) j * batch + i % batch))

/-- Modelled from the spec: kernel pELL_spmv_mCoil of section 4.3, missing
from the analysed sources (re_subroutine.py).  Adds, for every output
position, the gather sum into the (zero-initialized) output buffer y. -/
def pELL_spmv (batch prodJd : ℕ) (kindx : List (List ℕ)) (udata : List (List Cx))
    (k y : List Cx) : List Cx :=
  (List.range y.length).map fun i => getC y i + spmvRow batch prodJd kindx udata k i

/-- Modelled from the spec: kernel pELL_spmvh_mCoil of section 4.3, missing
from the analysed sources (re_subroutine.py).  Adjoint scatter: for every
sample m, neighbor j and channel b, accumulates the conjugated weight
times y[m,b] into grid position kindx[m][j] of channel b.  The atomic
floating-point accumulation order of the device is immaterial in this
exact-arithmetic model. -/
def pELL_spmvh (batch nRow prodJd : ℕ) (kindx : List (List ℕ)) (udata : List (List Cx))
    (y k0 : List Cx) : List Cx :=
  (List.range nRow).foldl (fun acc m =>
    (List.range prodJd).foldl (fun acc2 j =>
      (List.range batch).foldl (fun acc3 b =>
        let pos := getN2 kindx m j * batch + b
        acc3.set pos (getC acc3 pos + Cx.conj (getC2 udata m j) * getC y (m * batch + b))) acc2) acc) k0

/-- Modelled from the spec: kernel cPopulate of section 4.4, missing from
the analysed sources (re_subroutine.py).  Replicates the combined image s
across the batch channels of the output buffer. -/
def cPopulate (batch n : ℕ) (s : List Cx) : List Cx :=
  (List.range (n * batch)).map fun i => getC s (i / batch)

/-- Modelled from the spec: kernel cMultiplyVecInplace, missing from the
analysed sources (re_subroutine.py).  Element-wise in-place multiply of a
buffer by a vector (the coil sensitivity profile). -/
def cMultiplyVec (prof d : List Cx) : List Cx :=
  (List.range d.length).map fun i => getC d i * getC prof i

/-- Modelled from the spec: kernel cMultiplyConjVecInplace of section 4.4,
missing from the analysed sources (re_subroutine.py).  Element-wise
in-place multiply of a buffer by the conjugate of a vector. -/
def cMultiplyConjVec (prof d : List Cx) : List Cx :=
  (List.range d.length).map fun i => getC d i * Cx.conj (getC prof i)

/-- Modelled from the spec: kernel cAggregate of section 4.4, missing from
the analysed sources (re_subroutine.py).  Sums a batch-last buffer across
its channels into a combined Nd-sized buffer. -/
def cAggregate (batch n : ℕ) (d : List Cx) : List Cx :=
  (List.range n).map fun i => csum ((List.range batch).map fun b => getC d (i * batch + b))

/-- Device-resident array: the allocation shape together with the flat
C-order contents. -/
structure GArr where
  shape : List ℕ
  data : List Cx
deriving DecidableEq, Repr

/-- Transform plan, the immutable structures stored on self by plan() and
offload(): geometry, the pELL interpolator tables, the tensor scaling
vectors, and the execution context FFT primitive (external collaborator,
kept abstract as a function parameterized by the inverse flag). -/
structure Plan where
  Nd : List ℕ
  Kd : List ℕ
  Jd : List ℕ
  M : ℕ
  batchArg : Option ℕ
  Td : List ℕ
  tensor_sn : List (List ℚ)
  kindx : List (List ℕ)
  udata : List (List Cx)
  fft : Bool → List Cx → List Cx

/-- Field parallel_flag of plan(): 1 exactly when a batch argument was
given (nufft_hsa.py lines 160-163). -/
def Plan.parallel_flag (p : Plan) : Bool := p.batchArg.isSome

/-- Field batch of plan(): 1 when no batch argument was given
(nufft_hsa.py lines 165-169). -/
def Plan.batch (p : Plan) : ℕ := p.batchArg.getD 1

/-- Field multi_Nd of plan(): Nd when batch == 1 and parallel_flag == 0,
Nd + (batch,) otherwise (nufft_hsa.py lines 174-182). -/
def Plan.multi_Nd (p : Plan) : List ℕ :=
  if p.batch = 1 ∧ p.parallel_flag = false then p.Nd else p.Nd ++ [p.batch]

/-- Field multi_Kd of plan() (nufft_hsa.py lines 174-182). -/
def Plan.multi_Kd (p : Plan) : List ℕ :=
  if p.batch = 1 ∧ p.parallel_flag = false then p.Kd else p.Kd ++ [p.batch]

/-- Field multi_M of plan(): (M,) when batch == 1 and parallel_flag == 0,
(M, batch) otherwise (nufft_hsa.py lines 174-182). -/
def Plan.multi_M (p : Plan) : List ℕ :=
  if p.batch = 1 ∧ p.parallel_flag = false then [p.M] else [p.M, p.batch]

/-- Effect record of one pipeline stage: the contents of the argument
buffer after the stage ran (stages that work in place on their argument
mutate it), and the stage result. -/
structure Eff2 where
  inputAfter : GArr
  output : GArr

/-- Stage x2xx (nufft_hsa.py lines 305-333): allocates a fresh buffer xx,
copies the input x into it with thr.copy_array, then runs cTensorMultiply
in place on the copy xx; the argument x itself is never written. -/
def x2xxE (p : Plan) (x : GArr) : Eff2 :=
  { inputAfter := x,
    output := { shape := x.shape, data := cTensorMultiply p.batch p.Td p.tensor_sn x.data } }

/-- Result of stage x2xx. -/
def x2xx (p : Plan) (x : GArr) : GArr := (x2xxE p x).output

/-- Stage xx2x (nufft_hsa.py lines 455-480): identical body to x2xx, a
copy of the argument followed by the same in-place cTensorMultiply with
the same tSN arguments; the argument is never written. -/
def xx2xE (p : Plan) (xx : GArr) : Eff2 :=
  { inputAfter := xx,
    output := { shape := xx.shape, data := cTensorMultiply p.batch p.Td p.tensor_sn xx.data } }

/-- Result of stage xx2x. -/
def xx2x (p : Plan) (xx : GArr) : GArr := (xx2xE p xx).output

/-- Stage xx2k (nufft_hsa.py lines 335-364): allocates a zero-filled
multi_Kd buffer k, embeds xx into it with cTensorCopy direction 1, then
runs the batched FFT in place on k; the argument xx is only read. -/
def xx2k (p : Plan) (xx : GArr) : GArr :=
  { shape := p.multi_Kd,
    data := p.fft false (cTensorCopy p.batch p.Nd p.Kd xx.data (zerosC p.multi_Kd.prod) 1) }

/-- Stage k2y (nufft_hsa.py lines 366-393): allocates a zero-filled
multi_M buffer y and runs the pELL_spmv_mCoil gather into it; the
argument k is only read. -/
def k2y (p : Plan) (k : GArr) : GArr :=
  { shape := p.multi_M,
    data := pELL_spmv p.batch p.Jd.prod p.kindx p.udata k.data (zerosC p.multi_M.prod) }

/-- Stage y2k (nufft_hsa.py lines 395-422): allocates zero-filled real and
imaginary multi_Kd accumulators and runs the atomic pELL_spmvh_mCoil
scatter into them, then combines them into a fresh complex grid; the
argument y is only read. -/
def y2kE (p : Plan) (y : GArr) : Eff2 :=
  { inputAfter := y,
    output := { shape := p.multi_Kd,
                data := pELL_spmvh p.batch p.M p.Jd.prod p.kindx p.udata y.data
                  (zerosC p.multi_Kd.prod) } }

/-- Result of stage y2k. -/
def y2k (p : Plan) (y : GArr) : GArr := (y2kE p y).output

/-- Stage k2xx (nufft_hsa.py lines 424-453): runs the inverse FFT in place
on the argument k (the argument buffer ends up holding the transformed
grid), then extracts the Nd region into a fresh zero-filled multi_Nd
buffer with cTensorCopy direction -1. -/
def k2xxE (p : Plan) (k : GArr) : Eff2 :=
  { inputAfter := { shape := k.shape, data := p.fft true k.data },
    output := { shape := p.multi_Nd,
                data := cTensorCopy p.batch p.Nd p.Kd (p.fft true k.data)
                  (zerosC p.multi_Nd.prod) (-1) } }

/-- Result of stage k2xx. -/
def k2xx (p : Plan) (k : GArr) : GArr := (k2xxE p k).output

/-- Mutable per-instance device state: the plan plus the coil sensitivity
buffer volume[gpu_coil_profile]. -/
structure NufftState where
  plan : Plan
  gpu_coil_profile : GArr

/-- All-ones device array of a given shape. -/
def onesArr (shape : List ℕ) : GArr := { shape := shape, data := onesC shape.prod }

/-- Device offload of the planned structures (nufft_hsa.py lines 196-262);
the only mutable buffer it creates is gpu_coil_profile, allocated with
shape multi_Nd and filled with 1.0 (line 231). -/
def offload (p : Plan) : NufftState := { plan := p, gpu_coil_profile := onesArr p.multi_Nd }

/-- Method reset_sense (nufft_hsa.py lines 264-266): refills the existing
gpu_coil_profile buffer with 1.0, keeping its allocation shape. -/
def reset_sense (st : NufftState) : NufftState :=
  { st with gpu_coil_profile :=
      { shape := st.gpu_coil_profile.shape,
        data := onesC st.gpu_coil_profile.data.length } }

/-- Python error conditions relevant to the analysed entry points. -/
inductive PyErr where
  /-- An operation received an argument that is not a device array. -/
  | typeErr : PyErr
  /-- Transfer of the argument to the device failed. -/
  | transferErr : PyErr
  /-- ValueError raised by the set_sense shape guard. -/
  | valueErr : PyErr
  /-- NameError raised by the undefined variable gxx in the forward
  fallback handler (nufft_hsa.py line 545). -/
  | nameErrGxx : PyErr
  /-- AttributeError raised by reading .shape off an object without that
  attribute in the forward_one2many fallback handler (line 568). -/
  | attrErr : PyErr
deriving DecidableEq, Repr

/-- Method set_sense (nufft_hsa.py lines 268-276): raises ValueError when
the profile shape differs from multi_Nd, otherwise replaces the stored
gpu_coil_profile buffer with the transferred profile. -/
def set_sense (st : NufftState) (coil_profile : GArr) : Except PyErr NufftState :=
  if coil_profile.shape ≠ st.plan.multi_Nd then .error .valueErr
  else .ok { st with gpu_coil_profile := coil_profile }

/-- State of the instance after a set_sense call as seen by the caller: on
an exception the instance keeps its previous buffers. -/
def runSetSense (st : NufftState) (coil_profile : GArr) : NufftState :=
  match set_sense st coil_profile with
  | .ok st2 => st2
  | .error _ => st

/-- Multi-channel distribution stage s2x (nufft_hsa.py lines 291-303):
allocates a fresh multi_Nd buffer x, replicates s into it with cPopulate,
then multiplies x (the fresh buffer, not the argument) in place by the
coil profile with cMultiplyVecInplace; the argument s is only read. -/
def s2xE (st : NufftState) (s : GArr) : Eff2 :=
  { inputAfter := s,
    output := { shape := st.plan.multi_Nd,
                data := cMultiplyVec st.gpu_coil_profile.data
                  (cPopulate st.plan.batch st.plan.Nd.prod s.data) } }

/-- Result of stage s2x. -/
def s2x (st : NufftState) (s : GArr) : GArr := (s2xE st s).output

/-- Multi-channel combination stage x2s (nufft_hsa.py lines 482-492):
multiplies the argument x in place by the conjugate coil profile with
cMultiplyConjVecInplace (the argument buffer ends up holding the weighted
channels), then sums the channels into a fresh Nd-shaped buffer s with
cAggregate. -/
def x2sE (st : NufftState) (x : GArr) : Eff2 :=
  { inputAfter := { shape := x.shape, data := cMultiplyConjVec st.gpu_coil_profile.data x.data },
    output := { shape := st.plan.Nd,
                data := cAggregate st.plan.batch st.plan.Nd.prod
                  (cMultiplyConjVec st.gpu_coil_profile.data x.data) } }

/-- Result of stage x2s. -/
def x2s (st : NufftState) (x : GArr) : GArr := (x2sE st x).output

/-- Argument handed to a public entry point: a device-resident array, a
host-resident array (transparently transferable), or an object that is
neither a device buffer nor convertible by transfer. -/
inductive DevInput where
  | dev : GArr → DevInput
  | host : GArr → DevInput
  | junk : DevInput

/-- Fast path of forward: stage x2xx run directly on the argument; the
device kernels reject anything that is not a device array. -/
def x2xxI (p : Plan) : DevInput → Except PyErr GArr
  | .dev g => .ok (x2xx p g)
  | _ => .error .typeErr

/-- Fast path of adjoint: stage y2k run directly on the argument. -/
def y2kI (p : Plan) : DevInput → Except PyErr GArr
  | .dev g => .ok (y2k p g)
  | _ => .error .typeErr

/-- Fast path of forward_one2many: stage s2x run directly on the
argument. -/
def s2xI (st : NufftState) : DevInput → Except PyErr GArr
  | .dev g => .ok (s2x st g)
  | _ => .error .typeErr

/-- Method to_device (nufft_hsa.py lines 284-289): host-to-device transfer
of the argument; succeeds on arrays, fails on anything else. -/
def to_deviceI : DevInput → Except PyErr GArr
  | .dev g => .ok g
  | .host h => .ok h
  | .junk => .error .transferErr

/-- Attribute read s.shape performed inside the forward_one2many fallback
handler; raises AttributeError on an object without a shape. -/
def shapeOfI : DevInput → Except PyErr (List ℕ)
  | .dev g => .ok g.shape
  | .host h => .ok h.shape
  | .junk => .error .attrErr

/-- Method forward (nufft_hsa.py lines 524-553): tries x2xx on the
argument; on failure transfers the argument to the device once and
retries; if the transfer also fails, the handler evaluates gxx.shape with
gxx an undefined name, so a NameError is raised instead of either stored
exception; on a successful entry stage the pipeline continues with xx2k
and k2y. -/
def forward (p : Plan) (gx : DevInput) : Except PyErr GArr :=
  match x2xxI p gx with
  | .ok xx => .ok (k2y p (xx2k p xx))
  | .error _e1 =>
    match to_deviceI gx with
    | .ok px => .ok (k2y p (xx2k p (x2xx p px)))
    | .error _e2 => .error .nameErrGxx

/-- Method adjoint (nufft_hsa.py lines 595-624): tries y2k on the
argument; on failure transfers the argument once and retries; if the
transfer also fails its handler prints and re-raises, which in a nested
handler surfaces the inner (fallback) exception; on success the pipeline
continues with k2xx and xx2x. -/
def adjoint (p : Plan) (gy : DevInput) : Except PyErr GArr :=
  match y2kI p gy with
  | .ok k => .ok (xx2x p (k2xx p k))
  | .error _e1 =>
    match to_deviceI gy with
    | .ok py => .ok (xx2x p (k2xx p (y2k p py)))
    | .error e2 => .error e2

/-- Method forward_one2many (nufft_hsa.py lines 555-573): tries s2x on the
argument; on failure transfers once and retries; if that also fails the
handler reads s.shape (AttributeError on a shapeless object) and then
re-raises the inner exception; the distributed channels then go through
forward. -/
def forward_one2many (st : NufftState) (s : DevInput) : Except PyErr GArr :=
  match s2xI st s with
  | .ok x => forward st.plan (.dev x)
  | .error _e1 =>
    match to_deviceI s with
    | .ok ps => forward st.plan (.dev (s2x st ps))
    | .error e2 =>
      match shapeOfI s with
      | .ok _sh => .error e2
      | .error ae => .error ae

/-- Method adjoint_many2one (nufft_hsa.py lines 575-593): tries the full
adjoint on the argument (which has its own internal fallback); on failure
transfers once and retries the adjoint; if that also fails the handler
prints and re-raises the inner exception; the result then goes through
x2s. -/
def adjoint_many2one (st : NufftState) (y : DevInput) : Except PyErr GArr :=
  match adjoint st.plan y with
  | .ok x => .ok (x2s st x)
  | .error _e1 =>
    match to_deviceI y with
    | .ok py =>
      match adjoint st.plan (.dev py) with
      | .ok x => .ok (x2s st x)
      | .error e => .error e
    | .error e2 => .error e2

/-- Method selfadjoint (nufft_hsa.py lines 509-522): gy = forward(gx)
followed by adjoint(gy), exceptions propagating. -/
def selfadjoint (p : Plan) (gx : DevInput) : Except PyErr GArr :=
  match forward p gx with
  | .ok gy => adjoint p (.dev gy)
  | .error e => .error e

/-- Method selfadjoint_one2many2one (nufft_hsa.py lines 494-508):
gy = forward_one2many(gx) followed by adjoint_many2one(gy). -/
def selfadjoint_one2many2one (st : NufftState) (gx : DevInput) : Except PyErr GArr :=
  match forward_one2many st gx with
  | .ok gy => adjoint_many2one st (.dev gy)
  | .error e => .error e

/-- Contents of a device-resident forward argument after the call: in
forward (nufft_hsa.py lines 524-553) the argument gx is passed only to
x2xx, and the later stages read only the fresh buffers xx and k, so the
post-call contents of gx are whatever x2xx leaves in its argument. -/
def forward_input_after (p : Plan) (gx : GArr) : GArr := (x2xxE p gx).inputAfter

/-- Contents of a device-resident adjoint argument after the call: in
adjoint (nufft_hsa.py lines 595-624) the argument gy is passed only to
y2k, and the later stages read only the fresh buffers k and xx. -/
def adjoint_input_after (p : Plan) (gy : GArr) : GArr := (y2kE p gy).inputAfter

/-- Sample single-channel plan (batch argument omitted): Nd = (2,),
Kd = (4,), Jd = (2,), M = 2, identity standing in for the external FFT
primitive. -/
def p0 : Plan :=
  { Nd := [2], Kd := [4], Jd := [2], M := 2, batchArg := none,
    Td := [2], tensor_sn := [[1, 2]],
    kindx := [[0, 1], [2, 3]],
    udata := [[⟨1, 0⟩, ⟨2, 0⟩], [⟨0, 1⟩, ⟨1, 1⟩]],
    fft := fun _ d => d }

/-- Sample batched plan: the same geometry with batch = 2. -/
def p1 : Plan :=
  { Nd := [2], Kd := [4], Jd := [2], M := 2, batchArg := some 2,
    Td := [2], tensor_sn := [[1, 2]],
    kindx := [[0, 1], [2, 3]],
    udata := [[⟨1, 0⟩, ⟨2, 0⟩], [⟨0, 1⟩, ⟨1, 1⟩]],
    fft := fun _ d => d }

/-- Sample instance state right after plan() and offload() on p0. -/
def st0 : NufftState := offload p0

/-- Sample device image of shape Nd for p0. -/
def gx0 : GArr := { shape := [2], data := [⟨1, 0⟩, ⟨0, 1⟩] }

/-- Sample device sample-vector of shape (M,) for p0. -/
def gy0 : GArr := { shape := [2], data := [⟨2, 1⟩, ⟨0, 3⟩] }

/-- Sample profile of shape Nd + (batch,) = (2, 1) for the default
single-channel plan p0, whose multi_Nd is (2,). -/
def profNd1 : GArr := { shape := [2, 1], data := [1, 1] }

/-- Sample multi-channel device array for st0. -/
def x1c : GArr := { shape := [2], data := [⟨3, 4⟩, ⟨5, 6⟩] }

/-- Sample device grid array of shape Kd for p0. -/
def gk0 : GArr := { shape := [4], data := [⟨1, 0⟩, ⟨2, 0⟩, ⟨0, 1⟩, ⟨1, 1⟩] }

/-- Sample device image of shape Nd + (batch,) = (2, 2) for p1. -/
def gx1 : GArr := { shape := [2, 2], data := [⟨1, 0⟩, ⟨0, 1⟩, ⟨2, 0⟩, ⟨0, 2⟩] }

/-- Sample device sample-array of shape (M, batch) = (2, 2) for p1. -/
def gy1 : GArr := { shape := [2, 2], data := [⟨2, 1⟩, ⟨0, 3⟩, ⟨1, 1⟩, ⟨4, 0⟩] }

theorem getC_range_map (f : ℕ → Cx) (n i : ℕ) (h : i < n) :
    getC ((List.range n).map f) i = f i := by
  unfold getC
  rw [List.getD_eq_getElem _ _ (by simpa using h)]
  rw [List.getElem_map, List.getElem_range]

theorem getC_zeros (n i : ℕ) : getC (zerosC n) i = 0 := by
  unfold getC zerosC
  rcases Nat.lt_or_ge i n with h | h
  · rw [List.getD_eq_getElem _ _ (by simpa using h)]
    exact List.getElem_replicate _ _
  · exact List.getD_eq_default _ _ (by simpa using h)

theorem getC_ones (n i : ℕ) (h : i < n) : getC (onesC n) i = 1 := by
  unfold getC onesC
  rw [List.getD_eq_getElem _ _ (by simpa using h)]
  exact List.getElem_replicate _ _

theorem getC_eq_getElem (d : List Cx) (i : ℕ) (h : i < d.length) : getC d i = d[i] :=
  List.getD_eq_getElem d 0 h

theorem mulConjVec_ones (n : ℕ) (d : List Cx) (h : d.length ≤ n) :
    cMultiplyConjVec (onesC n) d = d := by
  unfold cMultiplyConjVec
  refine List.ext_getElem (by simp) ?_
  intro i h1 h2
  rw [List.getElem_map, List.getElem_range]
  rw [getC_ones n i (lt_of_lt_of_le h2 h), Cx.mul_conj_one, getC_eq_getElem d i h2]

theorem multi_M_prod (p : Plan) : p.multi_M.prod = p.M * p.batch := by
  unfold Plan.multi_M
  split
  · rename_i hc
    simp [hc.1]
  · simp

/-- Claim C1: for every planned instance and every device-resident image
of shape multi_Nd (Nd, or Nd + (batch,) for a batched plan), forward is
exactly the composed pipeline k2y(xx2k(x2xx(image))): the scaling stage
first, then the zero-padded batched FFT embedding, then the sparse
gather, with no other transformation of the data. -/
theorem forward_matches_composition (p : Plan) (g : GArr) (hg : g.shape = p.multi_Nd) :
    forward p (.dev g) = .ok (k2y p (xx2k p (x2xx p g))) := rfl

/-- Witness: forward_matches_composition at the concrete plan p0 and the
concrete device image gx0. -/
theorem forward_matches_composition_witness :
    gx0.shape = p0.multi_Nd ∧
    forward p0 (.dev gx0) = .ok (k2y p0 (xx2k p0 (x2xx p0 gx0))) :=
  ⟨by decide, forward_matches_composition p0 gx0 (by decide)⟩

/-- Claim C2: for every planned instance and every device-resident sample
vector of shape multi_M, adjoint is exactly the composed pipeline
xx2x(k2xx(y2k(samples))): scatter onto the oversampled grid, inverse FFT
and cropping back to Nd, and the same scaling multiply on exit as the one
x2xx applies on entry (xx2x and x2xx agree on every array). -/
theorem adjoint_matches_composition (p : Plan) (g : GArr) (hg : g.shape = p.multi_M) :
    adjoint p (.dev g) = .ok (xx2x p (k2xx p (y2k p g))) ∧
    ∀ a : GArr, xx2x p a = x2xx p a :=
  ⟨rfl, fun _ => rfl⟩

/-- Witness: adjoint_matches_composition at the concrete plan p0 and the
concrete device sample vector gy0. -/
theorem adjoint_matches_composition_witness :
    gy0.shape = p0.multi_M ∧
    adjoint p0 (.dev gy0) = .ok (xx2x p0 (k2xx p0 (y2k p0 gy0))) :=
  ⟨by decide, (adjoint_matches_composition p0 gy0 (by decide)).1⟩

/-- Claim C3: selfadjoint is element-wise exactly adjoint composed with
forward (the identical call path, recomputed on every call with no
precomputed shortcut), and selfadjoint_one2many2one is exactly
adjoint_many2one composed with forward_one2many. -/
theorem selfadjoint_is_adjoint_forward (p : Plan) (st : NufftState) (gx gs : DevInput) :
    selfadjoint p gx = (forward p gx).bind (fun gy => adjoint p (.dev gy)) ∧
    selfadjoint_one2many2one st gs =
      (forward_one2many st gs).bind (fun gy => adjoint_many2one st (.dev gy)) := by
  constructor
  · unfold selfadjoint
    cases forward p gx <;> rfl
  · unfold selfadjoint_one2many2one
    cases forward_one2many st gs <;> rfl

/-- Claim C4: for every planned instance, grid array, sample index m < M
and channel b < batch, the forward interpolation k2y starts from a
zero-initialized output and returns at position (m, b) exactly the
fixed-fan-in sum over the prodJd neighbors of weight[m,j] times
k[neighborIndex[m,j], b]. -/
theorem k2y_gather_formula (p : Plan) (k : GArr) (m b : ℕ)
    (hm : m < p.M) (hb : b < p.batch) :
    getC (k2y p k).data (m * p.batch + b) =
      csum ((List.range p.Jd.prod).map fun j =>
        getC2 p.udata m j * getC k.data (getN2 p.kindx m j * p.batch + b)) := by
  have hbatch : 0 < p.batch := Nat.lt_of_le_of_lt (Nat.zero_le b) hb
  have hi : m * p.batch + b < p.multi_M.prod := by
    rw [multi_M_prod]
    calc m * p.batch + b < m * p.batch + p.batch := Nat.add_lt_add_left hb _
    _ = (m + 1) * p.batch := by ring
    _ ≤ p.M * p.batch := Nat.mul_le_mul_right _ (Nat.succ_le_of_lt hm)
  have hdiv : (m * p.batch + b) / p.batch = m := by
    rw [mul_comm, Nat.mul_add_div hbatch, Nat.div_eq_of_lt hb, Nat.add_zero]
  have hmod : (m * p.batch + b) % p.batch = b := by
    rw [mul_comm, Nat.mul_add_mod]
    exact Nat.mod_eq_of_lt hb
  show getC (pELL_spmv p.batch p.Jd.prod p.kindx p.udata k.data
    (zerosC p.multi_M.prod)) (m * p.batch + b) = _
  unfold pELL_spmv
  rw [getC_range_map _ _ _ (by simpa [zerosC] using hi)]
  rw [getC_zeros, Cx.zero_add]
  unfold spmvRow
  rw [hdiv, hmod]

/-- Witness: k2y_gather_formula at the concrete plan p0, the concrete grid
gk0 and indices m = 0, b = 0. -/
theorem k2y_gather_formula_witness :
    (0 : ℕ) < p0.M ∧ (0 : ℕ) < p0.batch ∧
    getC (k2y p0 gk0).data (0 * p0.batch + 0) =
      csum ((List.range p0.Jd.prod).map fun j =>
        getC2 p0.udata 0 j * getC gk0.data (getN2 p0.kindx 0 j * p0.batch + 0)) :=
  ⟨by decide, by decide, k2y_gather_formula p0 gk0 0 0 (by decide) (by decide)⟩

/-- Claim C5 counterexample: on the default single-channel instance st0
(batch argument omitted, so batch = 1 and multi_Nd = Nd), a profile of
shape Nd + (batch,) = (2, 1) is exactly the shape the claim says must
succeed, yet set_sense rejects it with ValueError, because the guard
compares against multi_Nd = Nd, not against Nd + (batch,). -/
theorem set_sense_shape_claim_counterexample :
    profNd1.shape = st0.plan.Nd ++ [st0.plan.batch] ∧
    set_sense st0 profNd1 = .error .valueErr := by
  refine ⟨by decide, ?_⟩
  unfold set_sense
  rw [if_pos (by decide)]

/-- Claim C5 amended: set_sense succeeds and replaces the stored buffer
exactly when the profile shape equals multi_Nd, and fails with ValueError
leaving the stored buffer unchanged otherwise; multi_Nd equals
Nd + (batch,) only for a plan created with an explicit batch argument,
while for the single-channel default it equals plain Nd. -/
theorem set_sense_guard (st : NufftState) (prof : GArr) :
    (prof.shape = st.plan.multi_Nd →
      set_sense st prof = .ok { st with gpu_coil_profile := prof }) ∧
    (prof.shape ≠ st.plan.multi_Nd →
      set_sense st prof = .error .valueErr ∧
      (runSetSense st prof).gpu_coil_profile = st.gpu_coil_profile) ∧
    (st.plan.parallel_flag = true →
      st.plan.multi_Nd = st.plan.Nd ++ [st.plan.batch]) ∧
    (st.plan.batchArg = none → st.plan.multi_Nd = st.plan.Nd) := by
  refine ⟨?_, ?_, ?_, ?_⟩
  · intro h
    unfold set_sense
    rw [if_neg (by simp [h])]
  · intro h
    have hErr : set_sense st prof = .error .valueErr := by
      unfold set_sense
      rw [if_pos h]
    refine ⟨hErr, ?_⟩
    unfold runSetSense
    rw [hErr]
  · intro h
    simp [Plan.multi_Nd, h]
  · intro h
    simp [Plan.multi_Nd, Plan.parallel_flag, Plan.batch, h]

/-- Witness: set_sense_guard at the concrete instance st0, with a profile
of the accepted shape and one of a rejected shape. -/
theorem set_sense_guard_witness :
    set_sense st0 (onesArr [2]) = .ok { st0 with gpu_coil_profile := onesArr [2] } ∧
    set_sense st0 profNd1 = .error .valueErr :=
  ⟨(set_sense_guard st0 (onesArr [2])).1 (by decide),
   ((set_sense_guard st0 profNd1).2.1 (by decide)).1⟩

/-- Claim C6 counterexample: at the concrete untransferable input junk the
adjoint fast path fails with the type error, but the error surfaced by
adjoint is the fallback transfer failure, not that original fast-path
failure. -/
theorem fallback_original_error_counterexample :
    y2kI p0 DevInput.junk = .error .typeErr ∧
    adjoint p0 DevInput.junk = .error .transferErr ∧
    PyErr.transferErr ≠ PyErr.typeErr :=
  ⟨rfl, rfl, by decide⟩

/-- Claim C6 amended: every entry point attempts exactly one fallback
transfer and retry, and a host array is processed by the retry exactly as
the same array already on the device; but when the retry also fails the
surfaced error is the fallback path error, never the original fast-path
failure: forward raises the NameError of the undefined gxx in its
handler, forward_one2many raises the AttributeError of reading .shape off
the shapeless input, and adjoint and adjoint_many2one re-raise the
transfer failure. -/
theorem fallback_error_surfacing (p : Plan) (st : NufftState) (h : GArr) :
    forward p (.host h) = forward p (.dev h) ∧
    adjoint p (.host h) = adjoint p (.dev h) ∧
    forward p .junk = .error .nameErrGxx ∧
    adjoint p .junk = .error .transferErr ∧
    forward_one2many st .junk = .error .attrErr ∧
    adjoint_many2one st .junk = .error .transferErr :=
  ⟨rfl, rfl, rfl, rfl, rfl, rfl⟩

/-- Claim C7: forward maps a multi_Nd-shaped device input to a result of
shape multi_M and adjoint maps a multi_M-shaped device input back to
shape multi_Nd, where multi_Nd and multi_M are Nd and (M,) for the
single-channel default plan and Nd + (batch,) and (M, batch) for a
batched plan. -/
theorem forward_adjoint_shapes (p : Plan) (gx gy : GArr)
    (hx : gx.shape = p.multi_Nd) (hy : gy.shape = p.multi_M) :
    (∃ y, forward p (.dev gx) = .ok y ∧ y.shape = p.multi_M) ∧
    (∃ x, adjoint p (.dev gy) = .ok x ∧ x.shape = p.multi_Nd) ∧
    (p.batchArg = none → p.multi_Nd = p.Nd ∧ p.multi_M = [p.M]) ∧
    (p.parallel_flag = true →
      p.multi_Nd = p.Nd ++ [p.batch] ∧ p.multi_M = [p.M, p.batch]) := by
  refine ⟨⟨k2y p (xx2k p (x2xx p gx)), rfl, rfl⟩,
    ⟨xx2x p (k2xx p (y2k p gy)), rfl, rfl⟩, ?_, ?_⟩
  · intro h
    constructor <;>
      simp [Plan.multi_Nd, Plan.multi_M, Plan.parallel_flag, Plan.batch, h]
  · intro h
    constructor <;> simp [Plan.multi_Nd, Plan.multi_M, h]

/-- Witness: forward_adjoint_shapes at the concrete batched plan p1 with a
device image of shape (2, 2) and a device sample array of shape (2, 2). -/
theorem forward_adjoint_shapes_witness :
    gx1.shape = p1.multi_Nd ∧ gy1.shape = p1.multi_M ∧
    (∃ y, forward p1 (.dev gx1) = .ok y ∧ y.shape = p1.multi_M) :=
  ⟨by decide, by decide, (forward_adjoint_shapes p1 gx1 gy1 (by decide) (by decide)).1⟩

/-- Claim C8: right after plan() and offload() the stored coil profile is
the uniform all-ones buffer of shape multi_Nd; reset_sense restores the
all-ones contents of the stored buffer in any state; and under the
default all-ones profile the multi-channel combination x2s reduces to the
plain unweighted channel sum. -/
theorem coil_profile_default_ones (p : Plan) (x : GArr)
    (hx : x.data.length ≤ (offload p).gpu_coil_profile.data.length) :
    (offload p).gpu_coil_profile = onesArr p.multi_Nd ∧
    (∀ st : NufftState,
      (reset_sense st).gpu_coil_profile.shape = st.gpu_coil_profile.shape ∧
      (reset_sense st).gpu_coil_profile.data = onesC st.gpu_coil_profile.data.length) ∧
    x2s (offload p) x = { shape := p.Nd, data := cAggregate p.batch p.Nd.prod x.data } := by
  refine ⟨rfl, fun st => ⟨rfl, rfl⟩, ?_⟩
  have h2 : cMultiplyConjVec (offload p).gpu_coil_profile.data x.data = x.data :=
    mulConjVec_ones p.multi_Nd.prod x.data (by simpa [offload, onesArr, onesC] using hx)
  show ({ shape := p.Nd,
          data := cAggregate p.batch p.Nd.prod
            (cMultiplyConjVec (offload p).gpu_coil_profile.data x.data) } : GArr) = _
  rw [h2]

/-- Witness: coil_profile_default_ones at the concrete plan p0 with the
concrete image gx0 (whose flat length 2 fits the profile length 2). -/
theorem coil_profile_default_ones_witness :
    gx0.data.length ≤ (offload p0).gpu_coil_profile.data.length ∧
    (offload p0).gpu_coil_profile = onesArr p0.multi_Nd :=
  ⟨by decide, (coil_profile_default_ones p0 gx0 (by decide)).1⟩

/-- Claim C9: forward and adjoint never mutate their device-resident
argument: the entry stages x2xx (of forward) and the exit stage xx2x (of
adjoint) copy their argument into a fresh buffer and apply the in-place
scaling only to the copy, y2k only reads its argument, and the argument
of forward or adjoint is passed to no other stage, so its contents after
the call are unchanged. -/
theorem forward_adjoint_preserve_input (p : Plan) (gx gy : GArr) :
    forward_input_after p gx = gx ∧ adjoint_input_after p gy = gy ∧
    (x2xxE p gx).inputAfter = gx ∧ (xx2xE p gy).inputAfter = gy ∧
    (y2kE p gy).inputAfter = gy :=
  ⟨rfl, rfl, rfl, rfl, rfl⟩

/-- Claim C10 counterexample: with the default all-ones sensitivity
profile of the concrete instance st0 and the concrete nonzero array x1c,
the input buffer of x2s still holds exactly its original values after the
call (multiplying in place by conj(1) changes nothing), refuting the
universally quantified claim that every input array is destroyed. -/
theorem x2s_input_survives_counterexample :
    (x2sE st0 x1c).inputAfter = x1c := by
  show ({ shape := x1c.shape, data := cMultiplyConjVec (onesC p0.multi_Nd.prod) x1c.data } : GArr)
    = x1c
  rw [mulConjVec_ones p0.multi_Nd.prod x1c.data (by decide)]

/-- Claim C10 amended: x2s works in place on its input, overwriting it
with the element-wise product of the input and the conjugate sensitivity
profile — so the original values are lost exactly when that product
differs from the input (for example under any non-unit profile entry
against a nonzero value) — while the distribution step s2x leaves its
input intact. -/
theorem x2s_overwrites_s2x_preserves (st : NufftState) (x s : GArr) :
    (x2sE st x).inputAfter =
      { shape := x.shape, data := cMultiplyConjVec st.gpu_coil_profile.data x.data } ∧
    (s2xE st s).inputAfter = s :=
  ⟨rfl, rfl⟩
